import Mathlib

/-!
Verification of the czesl-conv converter (`czeslconv/convert.py`).

The definitions below are a shallow embedding of the converter's data model
and operations.  Python's mutable `AnnotToken` graph is embedded as follows:

* the serializer (`paraToVert`'s while-loop) only ever walks *upwards*
  (W token -> its `linksHigher` A tokens -> their `linksHigher` B tokens),
  so the resolved three-layer structure is embedded as nested values
  (`WTok` holding `ALink`s holding `ATok`s holding `BLink`s holding `BTok`s);
* Python code paths that would raise an exception (IndexError /
  AttributeError on a `DeletionToken`, a failed `assert`) are embedded as
  `Option`/`Except` with `none`/`.error` marking the raised exception;
* stderr diagnostics are embedded as an explicit list of log strings.

Python object identity on tokens is embedded as structural equality
(tokens of a layer are distinct objects in the source; ids are unique per
layer by construction of `TokenLayer.of`).
-/

set_option maxHeartbeats 1000000
set_option maxRecDepth 8000

namespace Czesl

/-- `POS_TAG_SEP` in `convert.py`: separator used when fitting multiple
POS-tags within a single vertical field. -/
def posTagSep : String := "|"

/-- `DEL_TOK_STR` in `convert.py`. -/
def delTokStr : String := "===NONE==="

/-- `DEL_TOK_ID` in `convert.py`. -/
def delTokId : String := "NA"

/-- `Morph` (`convert.py`): a lemma plus an ordered tag list.  The Python
field `lemma` is spelled `lemma'` because `lemma` is a Lean keyword. -/
structure Morph where
  lemma' : String
  tags : List String
deriving DecidableEq

/-- `ErrorData` (`convert.py`): error tag strings plus link id strings. -/
structure ErrorData where
  tags : List String
  links : List String
deriving DecidableEq

/-- `DeletionToken` (`convert.py`). -/
structure DeletionToken where
  fromId : String
  errors : List ErrorData
deriving DecidableEq

/-- A resolved B-layer token (an `AnnotToken` whose `baseToken` is a
`BToken`), restricted to the fields the serializer reads. -/
structure BTok where
  tid : String
  text : String
  morph : Morph
  errors : List ErrorData
  sentenceId : Option String
deriving DecidableEq

/-- An entry of an A token's `linksHigher` list: a real B token or a
`DeletionToken`. -/
inductive BLink where
  | tok (b : BTok)
  | del (d : DeletionToken)
deriving DecidableEq

/-- A resolved A-layer token (an `AnnotToken` whose `baseToken` is an
`AToken`), with its resolved `linksHigher` into the B layer. -/
structure ATok where
  tid : String
  text : String
  morphs : List Morph
  errors : List ErrorData
  sentenceId : Option String
  linksHigher : List BLink
deriving DecidableEq

/-- An entry of a W token's `linksHigher` list: a real A token or a
`DeletionToken`. -/
inductive ALink where
  | tok (a : ATok)
  | del (d : DeletionToken)
deriving DecidableEq

/-- A resolved W-layer token with its resolved `linksHigher` into the
A layer. -/
structure WTok where
  tid : String
  text : String
  sentenceId : Option String
  linksHigher : List ALink
deriving DecidableEq

/-- `'\t'.join(fields)`. -/
def tabJoin (fs : List String) : String := String.intercalate "\t" fs

/-- `POS_TAG_SEP.join(tags)`. -/
def pipeJoin (ts : List String) : String := String.intercalate posTagSep ts

/-- `getErrorTypeStr` (`convert.py`), applied to a token's `errors` list:
`'|'.join('|'.join(e.tags) for e in tok.errors)`. -/
def getErrorTypeStr (errors : List ErrorData) : String :=
  String.intercalate "|" (errors.map (fun e => String.intercalate "|" e.tags))

/-- The `f'<err level="{errTier}" type="{errTypeStr}">'` opening tag. -/
def errOpen (tier ty : String) : String :=
  "<err level=\"" ++ tier ++ "\" type=\"" ++ ty ++ "\">"

/-- The `f'<corr level="{errTier}" type="{errTypeStr}">'` opening tag. -/
def corrOpen (tier ty : String) : String :=
  "<corr level=\"" ++ tier ++ "\" type=\"" ++ ty ++ "\">"

/-- `_noErrors` (`convert.py`): true iff the link is a real token with an
empty `errors` list (a `DeletionToken` is never error-free). -/
def noErrors : BLink → Bool
  | .tok b => b.errors.isEmpty
  | .del _ => false

/-- `_noErrorsTransitive` (`convert.py`): the W token has exactly one higher
link, a real A token with no errors, which itself has exactly one higher
link, a real B token with no errors. -/
def noErrorsTransitive (wTok : WTok) : Bool :=
  match wTok.linksHigher with
  | [ALink.tok aTok] =>
    if !aTok.errors.isEmpty then false
    else
      match aTok.linksHigher with
      | [BLink.tok bTok] => bTok.errors.isEmpty
      | _ => false
  | _ => false

/-- The `while wToks and (aTok1 in wToks[0].linksHigher)` collection loop in
`paraToVert`: pops consecutive following W tokens whose `linksHigher`
contains `aTok1`, returning (collected tokens, remaining deque). -/
def collectRun (aTok1 : ATok) : List WTok → List WTok × List WTok
  | [] => ([], [])
  | t :: ts =>
    if ALink.tok aTok1 ∈ t.linksHigher then
      let p := collectRun aTok1 ts
      (t :: p.1, p.2)
    else ([], t :: ts)

/-- `'|'.join(m.lemma for m in aTok.baseToken.morphs)`. -/
def aLemmaStr (a : ATok) : String :=
  String.intercalate "|" (a.morphs.map Morph.lemma')

/-- `'|+|'.join(POS_TAG_SEP.join(m.tags) for m in aTok.baseToken.morphs)`. -/
def aTagStr (a : ATok) : String :=
  String.intercalate "|+|" (a.morphs.map (fun m => pipeJoin m.tags))

/-- A correction line for one linked B token inside a `<corr level="2">`
block: `'\t'.join((bTok.text, '', '', bTok.tid, lemma, tags))`. -/
def bCorrLine (b : BTok) : String :=
  tabJoin [b.text, "", "", b.tid, b.morph.lemma', pipeJoin b.morph.tags]

/-- Emission of one B-link correction line; a `DeletionToken` in the
iterated list raises `AttributeError` in the source (`none` here). -/
def bLinkCorrLine : BLink → Option String
  | .tok b => some (bCorrLine b)
  | .del _ => none

/-- The body of `for aTok in wTok.linksHigher:` inside the W-level edit
branch of `paraToVert` (lines 486-518): emitted lines and emitted stderr
logs for one `aTok`; `none` embeds a raised `AttributeError`. -/
def corrSubItem : ALink → Option (List String × List String)
  | ALink.del _ => none
  | ALink.tok a =>
    match a.linksHigher with
    | [BLink.tok b] =>
      if b.errors.isEmpty then
        some ([tabJoin [a.text, "", a.tid, b.tid, b.morph.lemma', pipeJoin b.morph.tags]], [])
      else
        (a.linksHigher.mapM bLinkCorrLine).map (fun bLines =>
          ([errOpen "2" (getErrorTypeStr b.errors),
            tabJoin [a.text, "", a.tid, "", aLemmaStr a, aTagStr a],
            "</err>", corrOpen "2" (getErrorTypeStr b.errors)] ++ bLines ++ ["</corr>"], []))
    | BLink.tok b1 :: _ :: _ =>
      (a.linksHigher.mapM bLinkCorrLine).map (fun bLines =>
        ([errOpen "2" (getErrorTypeStr b1.errors),
          tabJoin [a.text, "", a.tid, "", aLemmaStr a, aTagStr a],
          "</err>", corrOpen "2" (getErrorTypeStr b1.errors)] ++ bLines ++ ["</corr>"], []))
    | _ =>
      some ([], ["skipping unhandled error (deletion) for token " ++ a.tid ++ " \"" ++ a.text ++ "\""])

/-- The tier-1 deletion err/corr block (`paraToVert` lines 460-469). -/
def wDelBlock (wTok : WTok) (ty : String) : List String :=
  [errOpen "1" ty,
   tabJoin [wTok.text, wTok.tid, "", "", "", ""],
   "</err>",
   corrOpen "1" ty,
   tabJoin [delTokStr, "", delTokId, delTokId, "", ""],
   "</corr>"]

/-- The tier-2 deletion err/corr block (`paraToVert` lines 542-554). -/
def aDelBlock (wTok : WTok) (a : ATok) (ty : String) : List String :=
  [errOpen "2" ty,
   tabJoin [wTok.text, wTok.tid, a.tid, "", aLemmaStr a, aTagStr a],
   "</err>",
   corrOpen "2" ty,
   tabJoin [delTokStr, "", "", delTokId, "", ""],
   "</corr>"]

/-- One iteration of the `while wToks:` loop of `paraToVert`
(lines 447-556), excluding the sentence-boundary handling: takes the
popped W token and the remaining deque, returns (emitted lines, emitted
stderr logs, remaining deque); `none` embeds a raised exception. -/
def serializeWTok (wTok : WTok) (wToks : List WTok) :
    Option (List String × List String × List WTok) :=
  if noErrorsTransitive wTok then
    match wTok.linksHigher with
    | [ALink.tok a] =>
      match a.linksHigher with
      | [BLink.tok b] =>
        some ([tabJoin [wTok.text, wTok.tid, a.tid, b.tid, b.morph.lemma', pipeJoin b.morph.tags]],
          [], wToks)
      | _ => none
    | _ => none
  else
    match wTok.linksHigher with
    | [] => some (wDelBlock wTok "del", [], wToks)
    | ALink.del d :: _ => some (wDelBlock wTok (getErrorTypeStr d.errors), [], wToks)
    | ALink.tok aTok1 :: restLinks =>
      if aTok1.errors.isEmpty then
        match restLinks with
        | [] =>
          match aTok1.linksHigher with
          | BLink.tok bTok1 :: _ =>
            (aTok1.linksHigher.mapM bLinkCorrLine).map (fun bLines =>
              ([errOpen "2" (getErrorTypeStr bTok1.errors),
                tabJoin [wTok.text, wTok.tid, aTok1.tid, "", aLemmaStr aTok1, aTagStr aTok1],
                "</err>", corrOpen "2" (getErrorTypeStr bTok1.errors)] ++ bLines ++ ["</corr>"],
               [], wToks))
          | BLink.del d :: _ => some (aDelBlock wTok aTok1 (getErrorTypeStr d.errors), [], wToks)
          | [] => some (aDelBlock wTok aTok1 "del", [], wToks)
        | _ :: _ =>
          some ([], ["skipping unhandled error for token " ++ wTok.tid ++ " \"" ++ wTok.text ++ "\""],
            wToks)
      else
        let p := collectRun aTok1 wToks
        let ty := getErrorTypeStr aTok1.errors
        (wTok.linksHigher.mapM corrSubItem).map (fun items =>
          ([errOpen "1" ty]
            ++ (wTok :: p.1).map (fun t => tabJoin [t.text, t.tid, "", "", "", ""])
            ++ ["</err>", corrOpen "1" ty]
            ++ (items.map Prod.fst).flatten
            ++ ["</corr>"],
           (items.map Prod.snd).flatten, p.2))

/-- `(collectRun a ts).2` never grows beyond the input deque. -/
theorem collectRun_snd_length_le (a : ATok) (ts : List WTok) :
    (collectRun a ts).2.length ≤ ts.length := by
  induction ts with
  | nil => simp [collectRun]
  | cons t ts ih =>
    simp only [collectRun]
    split
    · simpa using Nat.le_succ_of_le ih
    · simp

/-- `serializeWTok` never grows the remaining deque. -/
theorem serializeWTok_rest_length_le (wTok : WTok) (wToks : List WTok)
    (lines logs : List String) (rest : List WTok)
    (h : serializeWTok wTok wToks = some (lines, logs, rest)) :
    rest.length ≤ wToks.length := by
  unfold serializeWTok at h
  repeat' split at h
  all_goals try exact Option.noConfusion h
  all_goals
    first
    | (simp only [Option.some.injEq, Prod.mk.injEq] at h
       obtain ⟨-, -, h⟩ := h
       subst h
       exact Nat.le_refl _)
    | (rw [Option.map_eq_some'] at h
       obtain ⟨items, -, h⟩ := h
       simp only [Prod.mk.injEq] at h
       obtain ⟨-, -, h⟩ := h
       subst h
       first
       | exact Nat.le_refl _
       | exact collectRun_snd_length_le _ _)

/-- Python truthiness of an optional string (`None` and `''` are falsy). -/
def strTruthy : Option String → Bool
  | none => false
  | some s => !(s == "")

/-- How Python renders the current sentence id inside
`f'<s id="{currSentenceId}">'` (`None` prints as `"None"`). -/
def optSidStr : Option String → String
  | none => "None"
  | some s => s

/-- The `while wToks:` loop of `paraToVert` (lines 439-561), including the
sentence-boundary handling and the trailing `</s>`: returns emitted lines
and stderr logs, `none` embedding a raised exception. -/
def vertLoop : Option String → List WTok → Option (List String × List String)
  | cur, [] => some ((if strTruthy cur then ["</s>"] else []), [])
  | cur, wTok :: rest =>
    let sentLines :=
      if wTok.sentenceId ≠ cur then
        (if strTruthy cur then ["</s>"] else [])
          ++ ["<s id=\"" ++ optSidStr wTok.sentenceId ++ "\">"]
      else []
    let cur' := if wTok.sentenceId ≠ cur then wTok.sentenceId else cur
    match h : serializeWTok wTok rest with
    | none => none
    | some (lines, logs, rest') =>
      match vertLoop cur' rest' with
      | none => none
      | some (tailLines, tailLogs) =>
        some (sentLines ++ lines ++ tailLines, logs ++ tailLogs)
termination_by _ toks => toks.length
decreasing_by
  exact Nat.lt_succ_of_le (serializeWTok_rest_length_le _ _ _ _ _ h)

/-- `paraToVert`'s output assembly for one paragraph (lines 433-565), given
the already-built W-layer token sequence: the `<p id="...">` wrapper around
the serialized token stream. -/
def paraVertLines (commonId : String) (toks : List WTok) :
    Option (List String × List String) :=
  match vertLoop none toks with
  | none => none
  | some (ls, lgs) => some ((("<p id=\"" ++ commonId ++ "\">") :: ls) ++ ["</p>"], lgs)

/-- Unfolding equation of `vertLoop` on the empty deque. -/
theorem vertLoop_nil (cur : Option String) :
    vertLoop cur [] = some ((if strTruthy cur then ["</s>"] else []), []) := by
  rw [vertLoop]

/-- Unfolding equation of `vertLoop` on a non-empty deque, given the
evaluation of `serializeWTok` on its head and of `vertLoop` on what that
leaves. -/
theorem vertLoop_cons (cur : Option String) (w : WTok) (rest : List WTok)
    (lines logs : List String) (rest' : List WTok) (tl : List String × List String)
    (h1 : serializeWTok w rest = some (lines, logs, rest'))
    (h2 : vertLoop (if w.sentenceId ≠ cur then w.sentenceId else cur) rest' = some tl) :
    vertLoop cur (w :: rest) =
      some ((if w.sentenceId ≠ cur then
               (if strTruthy cur then ["</s>"] else [])
                 ++ ["<s id=\"" ++ optSidStr w.sentenceId ++ "\">"]
             else []) ++ lines ++ tl.1, logs ++ tl.2) := by
  rw [vertLoop]
  split
  · next heq => rw [heq] at h1; exact Option.noConfusion h1
  · next a b c heq =>
    rw [heq] at h1
    simp only [Option.some.injEq, Prod.mk.injEq] at h1
    obtain ⟨hl, hg, hr⟩ := h1
    subst hl; subst hg; subst hr
    rw [h2]

/-!
`assignSentenceIds` (`convert.py` lines 338-373).  The Python function is
duck-typed over the tokens of any layer; the embedding is parametric in the
token type `τ` with explicit field accessors:

* `getSid t` reads `t.sentenceId`;
* `setSid t s` writes `t.sentenceId = s`;
* `inherit t` is the first pass's candidate id: `t.linksHigher[0].sentenceId`
  when `t.linksHigher` is non-empty and its first entry is not a
  `DeletionToken`, and `None` otherwise.
-/

/-- First pass of `assignSentenceIds` (lines 345-351): every token's
`sentenceId` is overwritten with the id inherited from its first higher
link, or `None`. -/
def sidPass1 {τ : Type} (setSid : τ → Option String → τ) (inherit : τ → Option String)
    (toks : List τ) : List τ :=
  toks.map (fun t => setSid t (inherit t))

/-- The `for i, tok in enumerate(tokLayer): if tok.sentenceId: ... break`
scan (lines 353-359): index and value of the first truthy `sentenceId`. -/
def firstTruthyIdx {τ : Type} (getSid : τ → Option String) : List τ → Option (Nat × Option String)
  | [] => none
  | t :: ts =>
    if strTruthy (getSid t) then some (0, getSid t)
    else (firstTruthyIdx getSid ts).map (fun p => (p.1 + 1, p.2))

/-- `for i in range(firstOkIdx): tokLayer.tokens[i].sentenceId = firstSentenceId`
(lines 367-368). -/
def prefixFill {τ : Type} (setSid : τ → Option String → τ) (sid : Option String) :
    Nat → List τ → List τ
  | 0, ts => ts
  | _ + 1, [] => []
  | k + 1, t :: ts => setSid t sid :: prefixFill setSid sid k ts

/-- The final fill (lines 370-373): any token whose `sentenceId` is `None`
inherits the previous token's (already updated) id, followed by
`assert tok.sentenceId`; `none` embeds a failed assertion. -/
def fillFromPrev {τ : Type} (getSid : τ → Option String) (setSid : τ → Option String → τ)
    (prev : Option String) : List τ → Option (List τ)
  | [] => some []
  | t :: ts =>
    let sid := if (getSid t).isNone then prev else getSid t
    if strTruthy sid then
      (fillFromPrev getSid setSid sid ts).map (fun r => setSid t sid :: r)
    else none

/-- `assignSentenceIds` (`convert.py`): propagate sentence ids into a layer
from the layer above, with fallbacks for leading/interior gaps and the
`'unknown'` sentinel when nothing resolves.  The initial `prev` value of the
final fill embeds Python's `tokLayer.tokens[i - 1]` at `i = 0`
(`tokens[-1]`, the last token). -/
def assignSentenceIds {τ : Type} (getSid : τ → Option String) (setSid : τ → Option String → τ)
    (inherit : τ → Option String) (toks : List τ) : Option (List τ) :=
  if toks.isEmpty then some toks
  else
    match firstTruthyIdx getSid (sidPass1 setSid inherit toks) with
    | none => some ((sidPass1 setSid inherit toks).map (fun t => setSid t (some "unknown")))
    | some (k, sid) =>
      fillFromPrev getSid setSid
        (match (prefixFill setSid sid k (sidPass1 setSid inherit toks)).getLast? with
         | some t => getSid t
         | none => none)
        (prefixFill setSid sid k (sidPass1 setSid inherit toks))

/-!
The edge model of `createLinkedLayers` (`convert.py` lines 283-320) and
`revertMapping` (lines 119-125).  A Python `defaultdict(list)` indexed by
string ids is embedded as an insertion-ordered association list with unique
keys; `aUpd m k vs` is `m[k].extend(vs)`.
-/

/-- Insertion-ordered association list embedding a `defaultdict(list)`
(keys are unique by construction, as in a Python dict). -/
abbrev AListS : Type := List (String × List String)

/-- `mapping[k]` for read access (a missing key reads as `[]`). -/
def lookupA : AListS → String → List String
  | [], _ => []
  | kv :: rest, k => if kv.1 == k then kv.2 else lookupA rest k

/-- `mapping[k].extend(vs)` on a `defaultdict(list)`: extends the existing
entry in place, or appends a new key at the end. -/
def aUpd (m : AListS) (k : String) (vs : List String) : AListS :=
  match m with
  | [] => [(k, vs)]
  | (k', vs') :: rest =>
    if k' == k then (k', vs' ++ vs) :: rest else (k', vs') :: aUpd rest k vs

/-- `revertMapping` (`convert.py`): for each key/value-list pair, append the
key under each value. -/
def revertMapping (m : AListS) : AListS :=
  m.foldl (fun acc kv => kv.2.foldl (fun acc v => aUpd acc v [kv.1]) acc) []

/-- `ref.split('#', maxsplit=1)[1]`: the part after the first `#`; `none`
embeds the `IndexError` raised when the reference contains no `#`
(implemented on the character list so that it evaluates structurally). -/
def stripRef (s : String) : Option String :=
  if s.data.contains '#' then
    some (String.mk ((s.data.dropWhile (fun c => c ≠ '#')).tail))
  else none

/-- An `edge` element as read by `createLinkedLayers`: the text contents of
its `from` children and of its `to` children. -/
structure EdgeElem where
  fromRefs : List String
  toRefs : List String
deriving DecidableEq

/-- A `w` token element of the A layer together with its direct `edge`
children, as iterated by `createLinkedLayers`. -/
structure TokElem where
  tid : String
  edges : List EdgeElem
deriving DecidableEq

/-- One edge's processing inside the `idMapWA` construction (lines
293-297): strip each `from` reference and extend its entry with the
enclosing token's own id followed by the verbatim `to` strings.  `none`
embeds the `IndexError` on a `from` reference without `#`. -/
def edgeStep (t : TokElem) (m : AListS) (e : EdgeElem) : Option AListS := do
  let fromIds ← e.fromRefs.mapM stripRef
  let toIds := t.tid :: e.toRefs
  return fromIds.foldl (fun m f => aUpd m f toIds) m

/-- The `idMapWA` construction of `createLinkedLayers` (lines 290-297):
iterate every `w` and every one of its `edge` children. -/
def buildIdMap (toks : List TokElem) : Option AListS :=
  toks.foldlM (fun m t => t.edges.foldlM (edgeStep t) m) []

/-- The `idMapAB` construction (lines 301-307), which consults only
`bw.edge` — the *first* edge element of each token. -/
def buildIdMapFirstEdge (toks : List TokElem) : Option AListS :=
  toks.foldlM (fun m t =>
    match t.edges.head? with
    | none => pure m
    | some e => edgeStep t m e) []

/-!
The layer builders (`createWLayer`, `createBLayer`) and the second-pass
linker (`findTokensByIds`, `linkLayers`).  Build-time tokens are embedded
as `AnnTok`: at this stage `linksLower` is always empty and `linksHigher`
is `[delNode]` or `[]`, so the latter is embedded as `delHigher : Option
DeletionToken`.
-/

/-- An `AnnotToken` as produced by the layer builders, before the
second-pass link resolution. -/
structure AnnTok where
  tid : String
  text : String
  layer : String
  sentenceId : Option String := none
  linkIdsLower : List String := []
  linkIdsHigher : List String := []
  errors : List ErrorData := []
  delHigher : Option DeletionToken := none
  bMorph : Option Morph := none
deriving DecidableEq

/-- A `w` element of the W-layer paragraph: its `id` attribute and the text
of its `token` child. -/
structure WElem where
  wid : String
  token : String
deriving DecidableEq

/-- Lookup in an id -> `DeletionToken` map (`idToDelW.get(wid)`). -/
def lookupDel (m : List (String × DeletionToken)) (k : String) : Option DeletionToken :=
  (m.find? (fun kv => kv.1 == k)).map (fun kv => kv.2)

/-- The anomaly message of `createWLayer` for a token with no links (the
source interpolates the whole `wTag` element; the embedding identifies the
element by its id). -/
def wNoLinkMsg (e : WElem) : String :=
  "W-layer token with no links to A-layer: " ++ e.wid

/-- The anomaly message of `createWLayer` for a token with both deletion
and non-deletion edges. -/
def wBothMsg (e : WElem) : String :=
  "W-layer token with both deletion and non-deletion edges to A-layer: " ++ e.wid

/-- The token built by one iteration of `createWLayer`'s loop. -/
def wTokOf (idMapWA : AListS) (idToDelW : List (String × DeletionToken)) (e : WElem) : AnnTok :=
  { tid := e.wid, text := e.token, layer := "w",
    linkIdsHigher := lookupA idMapWA e.wid,
    delHigher := lookupDel idToDelW e.wid }

/-- The stderr diagnostics of one iteration of `createWLayer`'s loop. -/
def wLogOf (idMapWA : AListS) (idToDelW : List (String × DeletionToken)) (e : WElem) :
    List String :=
  if (lookupDel idToDelW e.wid).isNone ∧ lookupA idMapWA e.wid = [] then [wNoLinkMsg e]
  else if (lookupDel idToDelW e.wid).isSome ∧ lookupA idMapWA e.wid ≠ [] then [wBothMsg e]
  else []

/-- `createWLayer` (`convert.py` lines 128-155): the built token sequence
plus the emitted stderr diagnostics. -/
def createWLayer (wPara : List WElem) (idMapWA : AListS)
    (idToDelW : List (String × DeletionToken)) : List AnnTok × List String :=
  (wPara.map (wTokOf idMapWA idToDelW), wPara.flatMap (wLogOf idMapWA idToDelW))

/-- A `lex` element of a B-layer `w` element (one `lemma` child plus `mtag`
children, as read by `Morph.fromLexTag`). -/
structure LexX where
  lemma' : String
  mtags : List String
deriving DecidableEq

/-- A `w` element of a B-layer sentence: id, `token` text, direct `lex`
children, and the `error` annotations of its `edge` child (`none` when
there is no edge). -/
structure BWElem where
  wid : String
  token : String
  lexes : List LexX
  edge : Option (List ErrorData)
deriving DecidableEq

/-- An `s` sentence element of a B-layer paragraph. -/
structure BSent where
  sid : String
  ws : List BWElem
deriving DecidableEq

/-- `Morph.fromLexTag`. -/
def morphFromLex (l : LexX) : Morph := ⟨l.lemma', l.mtags⟩

/-- One iteration of `createBLayer`'s inner loop (lines 213-233): `none`
token with a log when the `w` has no `lex` child (skipped), `.error` when
the `assert len(...) == 1` fails (more than one `lex`), otherwise the built
token. -/
def buildBW (idMapBA : AListS) (sid : String) (w : BWElem) :
    Except String (Option AnnTok × List String) :=
  if w.lexes.isEmpty then
    .ok (none, ["skipping token with no lex tag: " ++ w.wid])
  else if w.lexes.length != 1 then
    .error ("B-layer w-tag contains multiple lex tags: " ++ w.wid)
  else
    .ok (some { tid := w.wid, text := w.token, layer := "b", sentenceId := some sid,
                linkIdsLower := lookupA idMapBA w.wid,
                errors := w.edge.getD [],
                bMorph := w.lexes.head?.map morphFromLex }, [])

/-- `createBLayer` (`convert.py` lines 204-235): tokens grouped by sentence
elements, requiring exactly one `lex` per token; `.error` embeds the
paragraph-aborting `AssertionError`. -/
def createBLayer (bPara : List BSent) (idMapBA : AListS) :
    Except String (List AnnTok × List String) :=
  bPara.foldlM (fun acc s =>
    s.ws.foldlM (fun acc w => do
      let r ← buildBW idMapBA s.sid w
      return (acc.1 ++ r.1.toList, acc.2 ++ r.2)) acc) ([], [])

/-- A resolved cross-layer link: a real token of the adjacent layer or a
`DeletionToken`. -/
inductive Link where
  | tok (t : AnnTok)
  | del (d : DeletionToken)
deriving DecidableEq

/-- `TokenLayer.get`: the id -> token lookup built by `TokenLayer.of`
(`{t.tid: t for t in tokens}` — on duplicate ids the last token wins). -/
def layerGet (layer : List AnnTok) (tid : String) : Option AnnTok :=
  layer.reverse.find? (fun t => t.tid == tid)

/-- `findTokensByIds` (`convert.py` lines 238-252): resolve each id against
the layer lookup, returning the found tokens and the unmatched ids, both in
input order. -/
def findTokensByIds : List String → List AnnTok → List AnnTok × List String
  | [], _ => ([], [])
  | i :: is, layer =>
    let p := findTokensByIds is layer
    match layerGet layer i with
    | none => (p.1, i :: p.2)
    | some t => (t :: p.1, p.2)

/-- The `linksHigher` resolution of `linkLayers`: kept as `[delNode]` when
the builder installed a deletion, otherwise resolved from the id list
(unmatched ids are reported and dropped). -/
def resolveHigher (target : List AnnTok) (t : AnnTok) : List Link :=
  match t.delHigher with
  | some d => [Link.del d]
  | none => (findTokensByIds t.linkIdsHigher target).1.map Link.tok

/-- The `linksLower` resolution of `linkLayers` (builders never pre-fill
`linksLower`, so it is always resolved from the id list). -/
def resolveLower (target : List AnnTok) (t : AnnTok) : List Link :=
  (findTokensByIds t.linkIdsLower target).1.map Link.tok

/-- A token together with its resolved links, as left by `linkLayers`. -/
structure LinkedTok where
  core : AnnTok
  linksLower : List Link
  linksHigher : List Link
deriving DecidableEq

/-- `linkLayers` (`convert.py` lines 255-280): resolve every token's
remaining link-id lists against the adjacent layers. -/
def linkLayers (wL aL bL : List AnnTok) :
    List LinkedTok × List LinkedTok × List LinkedTok :=
  (wL.map (fun t => ⟨t, [], resolveHigher aL t⟩),
   aL.map (fun t => ⟨t, resolveLower wL t, resolveHigher bL t⟩),
   bL.map (fun t => ⟨t, resolveLower aL t, []⟩))

/-- One iteration of `inferErrors` (`convert.py` lines 407-412): `none`
embeds the `AttributeError` that reading `.baseToken` of a `DeletionToken`
in `linksLower[0]` would raise. -/
def inferErrorsTok (t : LinkedTok) : Option LinkedTok :=
  if t.core.errors.isEmpty ∧ t.linksLower.length == 1 then
    match t.linksLower.head? with
    | some (Link.tok lowerTok) =>
      some (if lowerTok.text != t.core.text then
              { t with core := { t.core with errors := [⟨["unknown"], []⟩] } }
            else t)
    | _ => none
  else some t

/-!
The document level: `docToVert` (`convert.py` lines 568-601) and the
per-document-set loop of `main` (lines 632-643).  A document is embedded as
its id, its optional `lowerdoc.rf` attribute and its paragraphs, each
paragraph carrying its `w` token elements (only their count matters here);
paragraph conversion itself is a parameter, mirroring the call to
`paraToVert`.
-/

/-- A paragraph as counted by `doc.find_all(name='w', recursive=True)`. -/
structure ParaX where
  pid : String
  ws : List String
deriving DecidableEq

/-- A `doc` element of a layer file. -/
structure DocX where
  docId : String
  lowerdocRf : Option String
  paras : List ParaX
deriving DecidableEq

/-- `len(doc.find_all(name='w', recursive=True))`. -/
def docTokCnt (d : DocX) : Nat :=
  (d.paras.map (fun p => p.ws.length)).sum

/-- `layer.find(name='doc', id=docId, recursive=False)`. -/
def findDoc (docs : List DocX) (did : String) : Option DocX :=
  docs.find? (fun d => d.docId == did)

/-- The A-document alignment of `docToVert` (lines 574-576): the
`lowerdoc.rf` attribute with its two-character layer prefix dropped, else
the `'a' + bDocId[1:]` fallback; both the derived and the B id are tried. -/
def alignADoc (aDocs : List DocX) (bDoc : DocX) : Option DocX :=
  let aDocId :=
    match bDoc.lowerdocRf with
    | some rf => rf.drop 2
    | none => "a" ++ bDoc.docId.drop 1
  (findDoc aDocs aDocId).orElse (fun _ => findDoc aDocs bDoc.docId)

/-- The W-document alignment of `docToVert` (lines 578-580). -/
def alignWDoc (wDocs : List DocX) (aDoc bDoc : DocX) : Option DocX :=
  let wDocId :=
    match aDoc.lowerdocRf with
    | some rf => rf.drop 2
    | none => "w" ++ bDoc.docId.drop 1
  (findDoc wDocs wDocId).orElse (fun _ => findDoc wDocs bDoc.docId)

/-- `docToVert` (`convert.py`): align the A and W documents, raise
`ValueError('B-layer annotation missing')` when the B document has zero
tokens while the A document has some, otherwise emit the `<doc>` block
around the converted paragraphs.  `paraFn` stands for `paraToVert`;
`.error` embeds a raised exception (including the `TypeError` on a missing
A document). -/
def docToVertM (paraFn : ParaX → DocX → Option DocX → Except String String)
    (aDocs wDocs : List DocX) (bDoc : DocX) : Except String String :=
  match alignADoc aDocs bDoc with
  | none => .error "NoneType has no attribute"
  | some aDoc =>
    let wDoc := alignWDoc wDocs aDoc bDoc
    if docTokCnt bDoc == 0 ∧ docTokCnt aDoc > 0 then
      .error "B-layer annotation missing"
    else do
      let paraStrs ← bDoc.paras.mapM (fun p => paraFn p aDoc wDoc)
      return String.intercalate "\n"
        (("<doc id=\"" ++ bDoc.docId.drop 2 ++ "\">") :: paraStrs ++ ["</doc>"])

/-- The `for metaFile in metaFiles:` loop of `main` (lines 632-643): each
batch item is converted; a raised exception is caught, a failure message is
logged, and the loop continues with the next item.  Returns the printed
outputs and the failure logs. -/
def mainLoop {α : Type} (fileFn : α → Except String String) (name : α → String) :
    List α → List String × List String
  | [] => ([], [])
  | f :: fs =>
    let p := mainLoop fileFn name fs
    match fileFn f with
    | .error _ => (p.1, ("Failed to process files " ++ name f) :: p.2)
    | .ok s => (s :: p.1, p.2)

/-- The first-pass inheritance read of `assignSentenceIds` for the W layer
(line 348-349): `tok.linksHigher[0].sentenceId` when the first higher link
exists and is not a `DeletionToken`, else `None`. -/
def wInherit (w : WTok) : Option String :=
  match w.linksHigher.head? with
  | some (ALink.tok a) => a.sentenceId
  | _ => none

/-- `tok.sentenceId = s` on a `WTok`. -/
def wSetSid (w : WTok) (s : Option String) : WTok := { w with sentenceId := s }

/-!  Claim theorems. -/

/-- C1: a W token forming a clean chain — exactly one higher link, a real
A token with empty errors, which has exactly one higher link, a real B
token with empty errors — serializes to exactly one flat tab-separated
6-field record (W text, W id, A id, B id, B lemma, B tags joined by `|`)
and no err/corr block. -/
theorem cleanChain_flat_record (w : WTok) (a : ATok) (b : BTok) (rest : List WTok)
    (hw : w.linksHigher = [ALink.tok a]) (ha : a.errors = [])
    (hab : a.linksHigher = [BLink.tok b]) (hb : b.errors = []) :
    serializeWTok w rest =
      some ([tabJoin [w.text, w.tid, a.tid, b.tid, b.morph.lemma', pipeJoin b.morph.tags]],
        [], rest) := by
  have hne : noErrorsTransitive w = true := by
    simp [noErrorsTransitive, hw, ha, hab, hb]
  simp [serializeWTok, hne, hw, hab]

/-- Witness for C1 at a concrete clean chain. -/
theorem cleanChain_flat_record_witness :
    serializeWTok
      ⟨"w1", "xw1", some "s1",
        [ALink.tok ⟨"a1", "xa1", [⟨"l1", ["t1"]⟩], [], none,
          [BLink.tok ⟨"b1", "xb1", ⟨"l1", ["t1"]⟩, [], some "s1"⟩]⟩]⟩ [] =
      some (["xw1\tw1\ta1\tb1\tl1\tt1"], [], []) := by
  have h := cleanChain_flat_record
    ⟨"w1", "xw1", some "s1",
      [ALink.tok ⟨"a1", "xa1", [⟨"l1", ["t1"]⟩], [], none,
        [BLink.tok ⟨"b1", "xb1", ⟨"l1", ["t1"]⟩, [], some "s1"⟩]⟩]⟩
    ⟨"a1", "xa1", [⟨"l1", ["t1"]⟩], [], none,
      [BLink.tok ⟨"b1", "xb1", ⟨"l1", ["t1"]⟩, [], some "s1"⟩]⟩
    ⟨"b1", "xb1", ⟨"l1", ["t1"]⟩, [], some "s1"⟩ [] rfl rfl rfl rfl
  rw [h]
  rfl

/-- C2 counterexample: a W token whose first higher link is a
`DeletionMarker` carrying *no* error tags is serialized with
`type=""` (the empty join), not with the literal type `"del"` the claim
states. -/
theorem wDeletion_type_counterexample :
    serializeWTok ⟨"w1", "hello", some "s1", [ALink.del ⟨"w1", []⟩]⟩ [] =
      some (["<err level=\"1\" type=\"\">", "hello\tw1\t\t\t\t", "</err>",
             "<corr level=\"1\" type=\"\">", "===NONE===\t\tNA\tNA\t\t", "</corr>"], [], [])
    ∧ ("<err level=\"1\" type=\"\">" : String) ≠ "<err level=\"1\" type=\"del\">" := by
  exact ⟨rfl, by decide⟩

/-- C2 (amended): a W token whose first higher link is a `DeletionMarker`
yields exactly one tier-1 err/corr pair, both typed by the deletion's error
tags joined by `|` (the empty string when the deletion carries none — the
literal `"del"` appears only when there is no higher link at all), with the
single correction line using the placeholders `===NONE===` and `NA` in the
A-id and B-id slots. -/
theorem wDeletion_block (w : WTok) (d : DeletionToken) (rest : List WTok)
    (h : w.linksHigher.head? = some (ALink.del d)) :
    serializeWTok w rest =
      some ([errOpen "1" (getErrorTypeStr d.errors),
             tabJoin [w.text, w.tid, "", "", "", ""], "</err>",
             corrOpen "1" (getErrorTypeStr d.errors),
             tabJoin [delTokStr, "", delTokId, delTokId, "", ""], "</corr>"], [], rest) := by
  obtain ⟨tl, hw⟩ : ∃ tl, w.linksHigher = ALink.del d :: tl := by
    cases hh : w.linksHigher with
    | nil => rw [hh] at h; exact absurd h (by simp)
    | cons x xs =>
      rw [hh] at h
      simp only [List.head?_cons, Option.some.injEq] at h
      exact ⟨xs, by rw [h]⟩
  have hne : noErrorsTransitive w = false := by
    simp [noErrorsTransitive, hw]
  simp [serializeWTok, hne, hw, wDelBlock]

/-- Witness for C2 (amended) at a concrete deletion link. -/
theorem wDeletion_block_witness :
    serializeWTok ⟨"w9", "word", some "s1", [ALink.del ⟨"w9", [⟨["incorX"], []⟩]⟩]⟩ [] =
      some (["<err level=\"1\" type=\"incorX\">", "word\tw9\t\t\t\t", "</err>",
             "<corr level=\"1\" type=\"incorX\">", "===NONE===\t\tNA\tNA\t\t", "</corr>"],
        [], []) := by
  have h := wDeletion_block ⟨"w9", "word", some "s1", [ALink.del ⟨"w9", [⟨["incorX"], []⟩]⟩]⟩
    ⟨"w9", [⟨["incorX"], []⟩]⟩ [] rfl
  rw [h]
  rfl

/-- C3 counterexample: a W token with no higher link and no deletion is
*not* excluded from the output — the serializer emits a full tier-1
err/corr block typed `"del"` for it. -/
theorem unlinked_token_counterexample :
    serializeWTok ⟨"w1", "hello", some "s1", []⟩ [] =
      some (["<err level=\"1\" type=\"del\">", "hello\tw1\t\t\t\t", "</err>",
             "<corr level=\"1\" type=\"del\">", "===NONE===\t\tNA\tNA\t\t", "</corr>"], [], [])
    ∧ (["<err level=\"1\" type=\"del\">", "hello\tw1\t\t\t\t", "</err>",
        "<corr level=\"1\" type=\"del\">", "===NONE===\t\tNA\tNA\t\t", "</corr>"] : List String)
      ≠ [] := by
  exact ⟨rfl, by decide⟩

/-- C3 (amended): a W token with neither an A-layer link nor a deletion
marker is logged as an anomaly by the layer builder, is serialized as a
tier-1 err/corr block typed `"del"` with the deletion placeholder (rather
than contributing nothing), and the paragraph output is still a block
opening with `<p id="...">` and closing with `</p>`. -/
theorem unlinked_token_behavior :
    (∀ (wPara : List WElem) (idMapWA : AListS) (idToDelW : List (String × DeletionToken))
       (e : WElem), e ∈ wPara → lookupA idMapWA e.wid = [] →
       lookupDel idToDelW e.wid = none →
       wNoLinkMsg e ∈ (createWLayer wPara idMapWA idToDelW).2)
    ∧ (∀ (w : WTok) (rest : List WTok), w.linksHigher = [] →
       serializeWTok w rest =
         some ([errOpen "1" "del", tabJoin [w.text, w.tid, "", "", "", ""], "</err>",
                corrOpen "1" "del", tabJoin [delTokStr, "", delTokId, delTokId, "", ""],
                "</corr>"], [], rest))
    ∧ (∀ (commonId : String) (toks : List WTok) (out : List String × List String),
       paraVertLines commonId toks = some out →
       out.1.head? = some ("<p id=\"" ++ commonId ++ "\">")
         ∧ out.1.getLast? = some "</p>") := by
  refine ⟨?_, ?_, ?_⟩
  · intro wPara idMapWA idToDelW e he h1 h2
    have : wNoLinkMsg e ∈ wLogOf idMapWA idToDelW e := by
      simp [wLogOf, h1, h2]
    exact List.mem_flatMap.mpr ⟨e, he, this⟩
  · intro w rest hw
    have hne : noErrorsTransitive w = false := by
      simp [noErrorsTransitive, hw]
    simp [serializeWTok, hne, hw, wDelBlock]
  · intro commonId toks out h
    unfold paraVertLines at h
    rcases hv : vertLoop none toks with - | p <;> rw [hv] at h
    · exact absurd h (by simp)
    · simp only [Option.some.injEq] at h
      subst h
      constructor
      · rfl
      · exact List.getLast?_concat _

/-- Witness for C3 (amended) at a concrete unlinked token and paragraph. -/
theorem unlinked_token_behavior_witness :
    (wNoLinkMsg ⟨"w1", "hello"⟩ ∈ (createWLayer [⟨"w1", "hello"⟩] [] []).2)
    ∧ serializeWTok ⟨"w1", "hello", some "s1", []⟩ [] =
        some ([errOpen "1" "del", tabJoin ["hello", "w1", "", "", "", ""], "</err>",
               corrOpen "1" "del", tabJoin [delTokStr, "", delTokId, delTokId, "", ""],
               "</corr>"], [], [])
    ∧ ((["<p id=\"p1\">", "<s id=\"s1\">", "<err level=\"1\" type=\"del\">",
         "hello\tw1\t\t\t\t", "</err>", "<corr level=\"1\" type=\"del\">",
         "===NONE===\t\tNA\tNA\t\t", "</corr>", "</s>", "</p>"],
        ([] : List String)) : List String × List String).1.head?
        = some ("<p id=\"" ++ "p1" ++ "\">")
    ∧ ((["<p id=\"p1\">", "<s id=\"s1\">", "<err level=\"1\" type=\"del\">",
         "hello\tw1\t\t\t\t", "</err>", "<corr level=\"1\" type=\"del\">",
         "===NONE===\t\tNA\tNA\t\t", "</corr>", "</s>", "</p>"],
        ([] : List String)) : List String × List String).1.getLast? = some "</p>" := by
  refine ⟨?_, ?_, ?_⟩
  · exact unlinked_token_behavior.1 [⟨"w1", "hello"⟩] [] [] ⟨"w1", "hello"⟩ (by simp) rfl rfl
  · exact unlinked_token_behavior.2.1 ⟨"w1", "hello", some "s1", []⟩ [] rfl
  · have h1 : serializeWTok ⟨"w1", "hello", some "s1", []⟩ [] =
        some (["<err level=\"1\" type=\"del\">", "hello\tw1\t\t\t\t", "</err>",
               "<corr level=\"1\" type=\"del\">", "===NONE===\t\tNA\tNA\t\t", "</corr>"],
          [], []) := rfl
    have h2 : vertLoop (some "s1") [] = some (["</s>"], []) := by
      rw [vertLoop_nil]
      rfl
    have h3 := vertLoop_cons none ⟨"w1", "hello", some "s1", []⟩ []
      ["<err level=\"1\" type=\"del\">", "hello\tw1\t\t\t\t", "</err>",
       "<corr level=\"1\" type=\"del\">", "===NONE===\t\tNA\tNA\t\t", "</corr>"]
      [] [] (["</s>"], []) h1 h2
    have hpv : paraVertLines "p1" [⟨"w1", "hello", some "s1", []⟩] =
        some (["<p id=\"p1\">", "<s id=\"s1\">", "<err level=\"1\" type=\"del\">",
               "hello\tw1\t\t\t\t", "</err>", "<corr level=\"1\" type=\"del\">",
               "===NONE===\t\tNA\tNA\t\t", "</corr>", "</s>", "</p>"], []) := by
      unfold paraVertLines
      rw [h3]
      rfl
    exact unlinked_token_behavior.2.2 "p1" [⟨"w1", "hello", some "s1", []⟩] _ hpv

/-- If `strTruthy s` then `s` is in particular non-null. -/
theorem strTruthy_isSome {s : Option String} (h : strTruthy s = true) : s.isSome := by
  cases s with
  | none => exact absurd h (by simp [strTruthy])
  | some v => rfl

/-- Every token surviving the final fill of `assignSentenceIds` carries a
truthy (hence non-null) sentence id. -/
theorem fillFromPrev_truthy {τ : Type} (getSid : τ → Option String)
    (setSid : τ → Option String → τ) (hlaw : ∀ t s, getSid (setSid t s) = s) :
    ∀ (ts : List τ) (prev : Option String) (res : List τ),
      fillFromPrev getSid setSid prev ts = some res →
      ∀ t ∈ res, strTruthy (getSid t) := by
  intro ts
  induction ts with
  | nil =>
    intro prev res h t ht
    simp only [fillFromPrev, Option.some.injEq] at h
    subst h
    exact absurd ht (by simp)
  | cons x xs ih =>
    intro prev res h t ht
    simp only [fillFromPrev] at h
    split at h
    all_goals split at h
    all_goals
      first
      | exact Option.noConfusion h
      | (rw [Option.map_eq_some'] at h
         obtain ⟨r, hr, hres⟩ := h
         subst hres
         rcases List.mem_cons.mp ht with h1 | h1
         · (subst h1; rw [hlaw]; assumption)
         · exact ih _ _ hr t h1)

/-- C4: sentence-id propagation is total — whenever `assignSentenceIds`
completes on a layer, every token of the result carries a non-null
`sentenceId` (tokens resolve from their first real higher link, leading
gaps take the first resolved id, interior gaps take the preceding token's
id), and when no token of a non-empty layer resolves, every token receives
the `'unknown'` sentinel. -/
theorem sentenceIds_total {τ : Type} (getSid : τ → Option String)
    (setSid : τ → Option String → τ) (inherit : τ → Option String)
    (hlaw : ∀ t s, getSid (setSid t s) = s) :
    (∀ (toks res : List τ),
       assignSentenceIds getSid setSid inherit toks = some res →
       ∀ t ∈ res, (getSid t).isSome)
    ∧ (∀ (toks : List τ), toks ≠ [] →
       firstTruthyIdx getSid (sidPass1 setSid inherit toks) = none →
       assignSentenceIds getSid setSid inherit toks =
         some ((sidPass1 setSid inherit toks).map (fun t => setSid t (some "unknown")))) := by
  constructor
  · intro toks res h t ht
    unfold assignSentenceIds at h
    split at h
    · next he =>
      simp only [Option.some.injEq] at h
      subst h
      rw [List.isEmpty_iff.mp he] at ht
      exact absurd ht (by simp)
    · split at h
      · simp only [Option.some.injEq] at h
        subst h
        obtain ⟨u, -, hu⟩ := List.mem_map.mp ht
        rw [← hu, hlaw]
        rfl
      · exact strTruthy_isSome (fillFromPrev_truthy getSid setSid hlaw _ _ _ h t ht)
  · intro toks hne hft
    unfold assignSentenceIds
    rw [if_neg (by simpa using hne), hft]

/-- Witness for C4: the generic propagator instantiated at the W layer on a
concrete token list with a leading and a trailing gap assigns the trailing
gap token a non-null sentence id. -/
theorem sentenceIds_total_witness :
    ((⟨"w3", "x", some "s9", []⟩ : WTok).sentenceId).isSome :=
  (sentenceIds_total WTok.sentenceId wSetSid wInherit (fun _ _ => rfl)).1
    [⟨"w2", "x", none, []⟩,
     ⟨"w1", "x", none, [ALink.tok ⟨"a1", "x", [], [], some "s9", []⟩]⟩,
     ⟨"w3", "x", none, []⟩]
    [⟨"w2", "x", some "s9", []⟩,
     ⟨"w1", "x", some "s9", [ALink.tok ⟨"a1", "x", [], [], some "s9", []⟩]⟩,
     ⟨"w3", "x", some "s9", []⟩]
    (by rfl)
    ⟨"w3", "x", some "s9", []⟩
    (by decide)

/-- Reading an updated `defaultdict`: the updated key sees its old value
extended, every other key is unaffected. -/
theorem lookupA_aUpd (m : AListS) (k vs k') :
    lookupA (aUpd m k vs) k' = if k' = k then lookupA m k ++ vs else lookupA m k' := by
  induction m with
  | nil =>
    by_cases h : k' = k
    · subst h
      simp [aUpd, lookupA]
    · simp [aUpd, lookupA, h, Ne.symm h]
  | cons kv rest ih =>
    by_cases h1 : kv.1 = k
    · by_cases h2 : k' = k
      · subst h2
        simp [aUpd, lookupA, h1]
      · simp [aUpd, lookupA, h1, h2, Ne.symm h2,
          (fun hc : kv.1 = k' => h2 (hc.symm.trans h1) : ¬kv.1 = k')]
    · by_cases h2 : k' = k
      · subst h2
        simp [aUpd, lookupA, h1, ih]
      · simp [aUpd, lookupA, h1, h2, ih]

/-- Folding `aUpd` over a key list: each key equal to the probe contributes
one copy of `vs`, in order. -/
theorem lookupA_foldl_aUpd (ks : List String) (vs : List String) (acc : AListS) (x : String) :
    lookupA (ks.foldl (fun a f => aUpd a f vs) acc) x
      = lookupA acc x ++ (ks.filter (fun f => f == x)).flatMap (fun _ => vs) := by
  induction ks generalizing acc with
  | nil => simp
  | cons f ks ih =>
    simp only [List.foldl_cons, List.filter_cons]
    rw [ih, lookupA_aUpd]
    by_cases h : f = x
    · rw [if_pos h.symm]
      simp [h]
    · rw [if_neg (fun hc => h hc.symm)]
      simp [h]

/-- The reverse map's fold, characterized: probing the result at `x` yields
the old content followed by one copy of each key whose value list contains
`x`, with multiplicity and in order. -/
theorem lookupA_revertFold (m : AListS) (acc : AListS) (x : String) :
    lookupA (m.foldl (fun acc kv => kv.2.foldl (fun a v => aUpd a v [kv.1]) acc) acc) x
      = lookupA acc x
        ++ m.flatMap (fun kv => (kv.2.filter (fun v => v == x)).flatMap (fun _ => [kv.1])) := by
  induction m generalizing acc with
  | nil => simp
  | cons kv rest ih =>
    simp only [List.foldl_cons, List.flatMap_cons]
    rw [ih, lookupA_foldl_aUpd, List.append_assoc]

/-- Membership in the reverse map. -/
theorem mem_lookupA_revertMapping (m : AListS) (x y : String) :
    y ∈ lookupA (revertMapping m) x ↔ ∃ kv ∈ m, kv.1 = y ∧ x ∈ kv.2 := by
  unfold revertMapping
  rw [lookupA_revertFold]
  simp only [lookupA, List.nil_append, List.mem_flatMap, List.mem_filter]
  constructor
  · rintro ⟨kv, hkv, v, ⟨hv, hvx⟩, hy⟩
    simp only [List.mem_cons, List.not_mem_nil, or_false] at hy
    exact ⟨kv, hkv, hy.symm, by rwa [← (by simpa using hvx : v = x)]⟩
  · rintro ⟨kv, hkv, hy, hx⟩
    exact ⟨kv, hkv, x, ⟨hx, by simp⟩, by simp [hy]⟩

/-- Membership in a forward map with unique keys (a Python dict). -/
theorem mem_lookupA_of_nodup (m : AListS) (hnd : (m.map Prod.fst).Nodup) (y x : String) :
    x ∈ lookupA m y ↔ ∃ kv ∈ m, kv.1 = y ∧ x ∈ kv.2 := by
  induction m with
  | nil => simp [lookupA]
  | cons kv rest ih =>
    simp only [List.map_cons, List.nodup_cons] at hnd
    by_cases h : kv.1 = y
    · simp only [lookupA]
      rw [if_pos (by simp [h])]
      constructor
      · intro hx
        exact ⟨kv, List.mem_cons_self kv rest, h, hx⟩
      · rintro ⟨kv', hkv', hk', hx⟩
        rcases List.mem_cons.mp hkv' with h1 | h1
        · subst h1
          exact hx
        · exfalso
          have hmem : kv'.1 ∈ List.map Prod.fst rest := List.mem_map_of_mem Prod.fst h1
          rw [hk', ← h] at hmem
          exact hnd.1 hmem
    · simp only [lookupA]
      rw [if_neg (by simp [h]), ih hnd.2]
      constructor
      · rintro ⟨kv', h1, hk', hx⟩
        exact ⟨kv', List.mem_cons_of_mem kv h1, hk', hx⟩
      · rintro ⟨kv', hkv', hk', hx⟩
        rcases List.mem_cons.mp hkv' with h1 | h1
        · subst h1
          exact absurd hk' h
        · exact ⟨kv', h1, hk', hx⟩

/-- C7: membership symmetry between a forward edge map (a dict: unique
keys) and its `revertMapping` inversion — `id2 ∈ m[id1]` iff
`id1 ∈ revertMapping(m)[id2]`. -/
theorem revertMapping_mem_iff (m : AListS) (hnd : (m.map Prod.fst).Nodup) (id1 id2 : String) :
    id2 ∈ lookupA m id1 ↔ id1 ∈ lookupA (revertMapping m) id2 := by
  rw [mem_lookupA_of_nodup m hnd, mem_lookupA_revertMapping]

/-- Witness for C7 on a concrete two-entry mapping. -/
theorem revertMapping_mem_iff_witness :
    (([("x", ["y", "z"]), ("u", ["y"])] : AListS).map Prod.fst).Nodup
    ∧ ("y" ∈ lookupA [("x", ["y", "z"]), ("u", ["y"])] "x"
       ↔ "x" ∈ lookupA (revertMapping [("x", ["y", "z"]), ("u", ["y"])]) "y") :=
  ⟨by decide, revertMapping_mem_iff [("x", ["y", "z"]), ("u", ["y"])] (by decide) "x" "y"⟩

/-- The contribution of one edge under token `t` to the forward map at
probe id `fid` (one copy of `t.tid :: e.toRefs` per matching stripped
`from` reference). -/
def edgeContrib (t : TokElem) (e : EdgeElem) (fid : String) : List String :=
  match e.fromRefs.mapM stripRef with
  | some fids => (fids.filter (fun f => f == fid)).flatMap (fun _ => t.tid :: e.toRefs)
  | none => []

/-- The total contribution of all tokens' edges at probe id `fid`. -/
def mapContribSpec (toks : List TokElem) (fid : String) : List String :=
  toks.flatMap (fun t => t.edges.flatMap (fun e => edgeContrib t e fid))

/-- One edge step extends the probe's entry with exactly its
contribution. -/
theorem lookupA_edgeStep (t : TokElem) (e : EdgeElem) (m m' : AListS)
    (h : edgeStep t m e = some m') (fid : String) :
    lookupA m' fid = lookupA m fid ++ edgeContrib t e fid := by
  unfold edgeStep at h
  unfold edgeContrib
  rcases hm : e.fromRefs.mapM stripRef with - | fids <;> rw [hm] at h
  · exact Option.noConfusion h
  · simp only [Option.pure_def, Option.bind_eq_bind, Option.some_bind,
      Option.some.injEq] at h
    subst h
    rw [lookupA_foldl_aUpd]

/-- Folding the edge steps of one token. -/
theorem lookupA_edgeFold (t : TokElem) :
    ∀ (es : List EdgeElem) (m m' : AListS),
      es.foldlM (edgeStep t) m = some m' →
      ∀ fid, lookupA m' fid = lookupA m fid ++ es.flatMap (fun e => edgeContrib t e fid) := by
  intro es
  induction es with
  | nil =>
    intro m m' h fid
    simp only [List.foldlM_nil, Option.pure_def, Option.some.injEq] at h
    subst h
    simp
  | cons e es ih =>
    intro m m' h fid
    rw [List.foldlM_cons] at h
    rcases he : edgeStep t m e with - | m₁ <;> rw [he] at h
    · exact Option.noConfusion h
    · simp only [Option.bind_eq_bind, Option.some_bind] at h
      rw [List.flatMap_cons, ih m₁ m' h fid, lookupA_edgeStep t e m m₁ he fid,
        List.append_assoc]

/-- Folding the token steps of the whole layer. -/
theorem lookupA_tokFold :
    ∀ (toks : List TokElem) (acc m : AListS),
      toks.foldlM (fun m t => t.edges.foldlM (edgeStep t) m) acc = some m →
      ∀ fid, lookupA m fid = lookupA acc fid ++ mapContribSpec toks fid := by
  intro toks
  induction toks with
  | nil =>
    intro acc m h fid
    simp only [List.foldlM_nil, Option.pure_def, Option.some.injEq] at h
    subst h
    simp [mapContribSpec]
  | cons t toks ih =>
    intro acc m h fid
    rw [List.foldlM_cons] at h
    rcases he : t.edges.foldlM (edgeStep t) acc with - | m₁ <;> rw [he] at h
    · exact Option.noConfusion h
    · simp only [Option.bind_eq_bind, Option.some_bind] at h
      rw [show mapContribSpec (t :: toks) fid
            = t.edges.flatMap (fun e => edgeContrib t e fid) ++ mapContribSpec toks fid
          from by simp [mapContribSpec],
        ih m₁ m h fid, lookupA_edgeFold t t.edges acc m₁ he fid, List.append_assoc]

/-- C6 counterexample: a `to` reference naming an id that is no token of
the higher layer still lands verbatim in the forward map's value list, so
not every id in a value list is a token id of the higher layer. -/
theorem forwardMap_value_counterexample :
    buildIdMap [⟨"a1", [⟨["w#w1"], ["zzz"]⟩]⟩] = some [("w1", ["a1", "zzz"])]
    ∧ "zzz" ∈ lookupA [("w1", ["a1", "zzz"])] "w1"
    ∧ ∀ t ∈ ([⟨"a1", [⟨["w#w1"], ["zzz"]⟩]⟩] : List TokElem), t.tid ≠ "zzz" := by
  refine ⟨rfl, by decide, by decide⟩

/-- C6 (amended): for every edge element under a token of the higher
layer, the forward map records, under each of the edge's `from` reference
ids with the layer prefix stripped, the edge's target list — the enclosing
token's own id followed by the verbatim `to` reference strings —
accumulated in document order across all edges; consequently every id in a
value list is an enclosing token's id or one of an edge's `to` reference
strings (which are meant to name higher-layer tokens but may dangle). -/
theorem forwardMap_characterization (toks : List TokElem) (m : AListS)
    (h : buildIdMap toks = some m) :
    (∀ fid, lookupA m fid = mapContribSpec toks fid)
    ∧ (∀ fid v, v ∈ lookupA m fid →
        (∃ t ∈ toks, v = t.tid) ∨ (∃ t ∈ toks, ∃ e ∈ t.edges, v ∈ e.toRefs)) := by
  have hchar : ∀ fid, lookupA m fid = mapContribSpec toks fid := by
    intro fid
    have hg := lookupA_tokFold toks [] m h fid
    simpa [lookupA] using hg
  refine ⟨hchar, ?_⟩
  intro fid v hv
  rw [hchar fid] at hv
  unfold mapContribSpec at hv
  rw [List.mem_flatMap] at hv
  obtain ⟨t, ht, hv⟩ := hv
  rw [List.mem_flatMap] at hv
  obtain ⟨e, he, hv⟩ := hv
  unfold edgeContrib at hv
  split at hv
  · rw [List.mem_flatMap] at hv
    obtain ⟨f, -, hv⟩ := hv
    rcases List.mem_cons.mp hv with h1 | h1
    · exact Or.inl ⟨t, ht, h1⟩
    · exact Or.inr ⟨t, ht, e, he, h1⟩
  · exact absurd hv (by simp)

/-- Witness for C6 (amended) on a concrete one-edge layer. -/
theorem forwardMap_characterization_witness :
    buildIdMap [(⟨"a1", [⟨["w#w1"], ["a9"]⟩]⟩ : TokElem)] = some [("w1", ["a1", "a9"])]
    ∧ lookupA [("w1", ["a1", "a9"])] "w1"
        = mapContribSpec [(⟨"a1", [⟨["w#w1"], ["a9"]⟩]⟩ : TokElem)] "w1" :=
  ⟨rfl, (forwardMap_characterization [⟨"a1", [⟨["w#w1"], ["a9"]⟩]⟩]
    [("w1", ["a1", "a9"])] rfl).1 "w1"⟩

/-- A link is a real (non-deletion) token. -/
def bLinkIsTok : BLink → Bool
  | .tok _ => true
  | .del _ => false

/-- The correction sub-item loop does not raise for this link: the link is
a real A token and, when its first B link is real, every B link is real. -/
def aLinkSafe : ALink → Bool
  | ALink.del _ => false
  | ALink.tok a =>
    match a.linksHigher with
    | [] => true
    | BLink.del _ :: _ => true
    | BLink.tok _ :: _ => a.linksHigher.all bLinkIsTok

/-- The lines one A link contributes to the tier-1 correction block, per
the (amended) claim: a flat sub-record when the A token has exactly one
higher link which is an error-free B token; a nested tier-2 err/corr pair
typed by the first linked B token's errors when it has at least one higher
link whose first is not a deletion; nothing otherwise. -/
def corrLinesSpec : ALink → List String
  | ALink.del _ => []
  | ALink.tok a =>
    match a.linksHigher with
    | [BLink.tok b] =>
      if b.errors.isEmpty then
        [tabJoin [a.text, "", a.tid, b.tid, b.morph.lemma', pipeJoin b.morph.tags]]
      else
        [errOpen "2" (getErrorTypeStr b.errors),
         tabJoin [a.text, "", a.tid, "", aLemmaStr a, aTagStr a],
         "</err>", corrOpen "2" (getErrorTypeStr b.errors)]
          ++ a.linksHigher.filterMap bLinkCorrLine ++ ["</corr>"]
    | BLink.tok b1 :: _ :: _ =>
      [errOpen "2" (getErrorTypeStr b1.errors),
       tabJoin [a.text, "", a.tid, "", aLemmaStr a, aTagStr a],
       "</err>", corrOpen "2" (getErrorTypeStr b1.errors)]
        ++ a.linksHigher.filterMap bLinkCorrLine ++ ["</corr>"]
    | _ => []

/-- The stderr logs one A link contributes to the tier-1 correction block:
a logged skip exactly when the A token resolves to nothing or to a
deletion. -/
def corrLogsSpec : ALink → List String
  | ALink.del _ => []
  | ALink.tok a =>
    match a.linksHigher with
    | [BLink.tok _] => []
    | BLink.tok _ :: _ :: _ => []
    | _ => ["skipping unhandled error (deletion) for token " ++ a.tid ++ " \"" ++ a.text ++ "\""]

/-- Under all-real B links, the correction-line emission cannot raise. -/
theorem mapM_bLinkCorrLine (bls : List BLink) (hall : ∀ bl ∈ bls, bLinkIsTok bl = true) :
    bls.mapM bLinkCorrLine = some (bls.filterMap bLinkCorrLine) := by
  induction bls with
  | nil => rfl
  | cons bl bls ih =>
    cases bl with
    | del d => exact absurd (hall _ (List.mem_cons_self _ _)) (by simp [bLinkIsTok])
    | tok b =>
      rw [List.mapM_cons, ih (fun x hx => hall x (List.mem_cons_of_mem _ hx))]
      simp [bLinkCorrLine, List.filterMap_cons]

/-- A safe link's correction sub-item evaluates without raising, to the
spec-side lines and logs. -/
theorem corrSubItem_safe (l : ALink) (hs : aLinkSafe l = true) :
    corrSubItem l = some (corrLinesSpec l, corrLogsSpec l) := by
  cases l with
  | del d => exact absurd hs (by simp [aLinkSafe])
  | tok a =>
    rcases hl : a.linksHigher with - | ⟨bl1, bls⟩
    · simp [corrSubItem, corrLinesSpec, corrLogsSpec, hl]
    · cases bl1 with
      | del d => simp [corrSubItem, corrLinesSpec, corrLogsSpec, hl]
      | tok b =>
        have hall : ∀ bl ∈ a.linksHigher, bLinkIsTok bl = true := by
          simp only [aLinkSafe, hl] at hs
          rw [hl]
          exact fun bl hbl => List.all_eq_true.mp hs bl hbl
        have hm := mapM_bLinkCorrLine a.linksHigher hall
        rw [hl] at hm
        cases bls with
        | nil =>
          by_cases hbe : b.errors.isEmpty
          · simp [corrSubItem, corrLinesSpec, corrLogsSpec, hl, hbe]
          · simp [corrSubItem, corrLinesSpec, corrLogsSpec, hl, hbe]
            exact hm
        | cons bl2 bls2 =>
          simp [corrSubItem, corrLinesSpec, corrLogsSpec, hl]
          exact hm

/-- Under all-safe links, the correction enumeration cannot raise. -/
theorem mapM_corrSubItem (ls : List ALink) (hall : ∀ l ∈ ls, aLinkSafe l = true) :
    ls.mapM corrSubItem = some (ls.map (fun l => (corrLinesSpec l, corrLogsSpec l))) := by
  induction ls with
  | nil => rfl
  | cons l ls ih =>
    rw [List.mapM_cons, corrSubItem_safe l (hall _ (List.mem_cons_self _ _)),
      ih (fun x hx => hall x (List.mem_cons_of_mem _ hx))]
    rfl

/-- C5 counterexample: the W-run `w1, w2` (both linking to the erroneous
`a1`) also links to the clean A token `a2` through `w2`, yet the correction
block enumerates only the *first* W token's higher links, so `a2`'s flat
sub-record (`xa2 TAB TAB a2 TAB b2 TAB l2 TAB t2`) never appears. -/
theorem editRun_enumeration_counterexample :
    serializeWTok
      ⟨"w1", "xw1", some "s1",
        [ALink.tok ⟨"a1", "xa1", [⟨"l1", ["t1"]⟩], [⟨["E"], []⟩], none,
          [BLink.tok ⟨"b1", "xb1", ⟨"l1", ["t1"]⟩, [], some "s1"⟩]⟩]⟩
      [⟨"w2", "xw2", some "s1",
        [ALink.tok ⟨"a1", "xa1", [⟨"l1", ["t1"]⟩], [⟨["E"], []⟩], none,
           [BLink.tok ⟨"b1", "xb1", ⟨"l1", ["t1"]⟩, [], some "s1"⟩]⟩,
         ALink.tok ⟨"a2", "xa2", [⟨"l2", ["t2"]⟩], [], none,
           [BLink.tok ⟨"b2", "xb2", ⟨"l2", ["t2"]⟩, [], some "s1"⟩]⟩]⟩] =
      some (["<err level=\"1\" type=\"E\">", "xw1\tw1\t\t\t\t", "xw2\tw2\t\t\t\t", "</err>",
             "<corr level=\"1\" type=\"E\">", "xa1\t\ta1\tb1\tl1\tt1", "</corr>"], [], [])
    ∧ "xa2\t\ta2\tb2\tl2\tt2" ∉
        (["<err level=\"1\" type=\"E\">", "xw1\tw1\t\t\t\t", "xw2\tw2\t\t\t\t", "</err>",
          "<corr level=\"1\" type=\"E\">", "xa1\t\ta1\tb1\tl1\tt1", "</corr>"] : List String) := by
  exact ⟨rfl, by decide⟩

/-- C5 (amended): a W token whose first higher link is a real A token with
a non-empty errors list is collected with every immediately following W
token whose higher links contain that A token into one tier-1 error block
typed by the A token's error tags joined by `|`, with one tab-record line
per collected W token; the correction block enumerates, for every A token
among the *first* collected W token's higher links: a flat sub-record when
that A token has exactly one higher link which is an error-free B token; a
nested tier-2 err/corr pair (typed by the first linked B token's error
tags) when it has at least one higher link whose first entry is not a
deletion; otherwise a logged skip. -/
theorem editRun_serialization (w : WTok) (a1 : ATok) (rest : List WTok)
    (h1 : w.linksHigher.head? = some (ALink.tok a1))
    (h2 : a1.errors ≠ [])
    (h3 : ∀ l ∈ w.linksHigher, aLinkSafe l = true) :
    serializeWTok w rest =
      some ([errOpen "1" (getErrorTypeStr a1.errors)]
          ++ (w :: (collectRun a1 rest).1).map (fun t => tabJoin [t.text, t.tid, "", "", "", ""])
          ++ ["</err>", corrOpen "1" (getErrorTypeStr a1.errors)]
          ++ w.linksHigher.flatMap corrLinesSpec
          ++ ["</corr>"],
        w.linksHigher.flatMap corrLogsSpec,
        (collectRun a1 rest).2) := by
  obtain ⟨tl, hw⟩ : ∃ tl, w.linksHigher = ALink.tok a1 :: tl := by
    cases hh : w.linksHigher with
    | nil => rw [hh] at h1; exact absurd h1 (by simp)
    | cons x xs =>
      rw [hh] at h1
      simp only [List.head?_cons, Option.some.injEq] at h1
      exact ⟨xs, by rw [h1]⟩
  have hie : a1.errors.isEmpty = false := by
    simpa using h2
  have hne : noErrorsTransitive w = false := by
    unfold noErrorsTransitive
    rw [hw]
    cases tl
    · simp [hie]
    · rfl
  have hm := mapM_corrSubItem w.linksHigher h3
  rw [hw] at hm
  unfold serializeWTok
  rw [if_neg (by simp [hne]), hw]
  simp only [hie, Bool.false_eq_true, if_false, hm, Option.map_some]
  rw [← hw]
  simp [List.flatMap, Function.comp_def]

/-- Witness for C5 (amended) at the concrete two-token run. -/
theorem editRun_serialization_witness :
    serializeWTok
      ⟨"w1", "xw1", some "s1",
        [ALink.tok ⟨"a1", "xa1", [⟨"l1", ["t1"]⟩], [⟨["E"], []⟩], none,
          [BLink.tok ⟨"b1", "xb1", ⟨"l1", ["t1"]⟩, [], some "s1"⟩]⟩]⟩
      [⟨"w2", "xw2", some "s1",
        [ALink.tok ⟨"a1", "xa1", [⟨"l1", ["t1"]⟩], [⟨["E"], []⟩], none,
           [BLink.tok ⟨"b1", "xb1", ⟨"l1", ["t1"]⟩, [], some "s1"⟩]⟩]⟩] =
      some (["<err level=\"1\" type=\"E\">", "xw1\tw1\t\t\t\t", "xw2\tw2\t\t\t\t", "</err>",
             "<corr level=\"1\" type=\"E\">", "xa1\t\ta1\tb1\tl1\tt1", "</corr>"], [], []) := by
  have h := editRun_serialization
    ⟨"w1", "xw1", some "s1",
      [ALink.tok ⟨"a1", "xa1", [⟨"l1", ["t1"]⟩], [⟨["E"], []⟩], none,
        [BLink.tok ⟨"b1", "xb1", ⟨"l1", ["t1"]⟩, [], some "s1"⟩]⟩]⟩
    ⟨"a1", "xa1", [⟨"l1", ["t1"]⟩], [⟨["E"], []⟩], none,
      [BLink.tok ⟨"b1", "xb1", ⟨"l1", ["t1"]⟩, [], some "s1"⟩]⟩
    [⟨"w2", "xw2", some "s1",
      [ALink.tok ⟨"a1", "xa1", [⟨"l1", ["t1"]⟩], [⟨["E"], []⟩], none,
         [BLink.tok ⟨"b1", "xb1", ⟨"l1", ["t1"]⟩, [], some "s1"⟩]⟩]⟩]
    rfl (by decide) (by decide)
  rw [h]
  rfl

/-- Skipping one failing batch item: the printed outputs are those of the
other items, and the failure is logged. -/
theorem mainLoop_skip {α : Type} (fileFn : α → Except String String) (name : α → String)
    (x : α) (e : String) (hx : fileFn x = .error e) :
    ∀ pre post : List α,
      (mainLoop fileFn name (pre ++ x :: post)).1 = (mainLoop fileFn name (pre ++ post)).1
      ∧ ("Failed to process files " ++ name x) ∈ (mainLoop fileFn name (pre ++ x :: post)).2 := by
  intro pre
  induction pre with
  | nil =>
    intro post
    constructor
    · simp [mainLoop, hx]
    · simp [mainLoop, hx]
  | cons y pre ih =>
    intro post
    simp only [List.cons_append, mainLoop]
    cases hfy : fileFn y with
    | error e' =>
      refine ⟨?_, ?_⟩
      · show (mainLoop fileFn name (pre ++ x :: post)).1
          = (mainLoop fileFn name (pre ++ post)).1
        exact (ih post).1
      · show ("Failed to process files " ++ name x)
          ∈ ("Failed to process files " ++ name y)
            :: (mainLoop fileFn name (pre ++ x :: post)).2
        exact List.mem_cons_of_mem _ (ih post).2
    | ok s =>
      refine ⟨?_, ?_⟩
      · show s :: (mainLoop fileFn name (pre ++ x :: post)).1
          = s :: (mainLoop fileFn name (pre ++ post)).1
        rw [(ih post).1]
      · show ("Failed to process files " ++ name x)
          ∈ (mainLoop fileFn name (pre ++ x :: post)).2
        exact (ih post).2

/-- C8: a document whose B layer holds zero tokens while its aligned A
document holds some makes `docToVert` raise (`.error`, so no output string
is produced for it), and the `main` loop catches any failing batch item,
logs the failure, and processes the remaining items unchanged. -/
theorem bLayerMissing_fatal_and_continue :
    (∀ (paraFn : ParaX → DocX → Option DocX → Except String String)
       (aDocs wDocs : List DocX) (bDoc aDoc : DocX),
       alignADoc aDocs bDoc = some aDoc →
       docTokCnt bDoc = 0 → 0 < docTokCnt aDoc →
       docToVertM paraFn aDocs wDocs bDoc = .error "B-layer annotation missing")
    ∧ (∀ (fileFn : Except String String → Except String String)
       (name : Except String String → String)
       (pre post : List (Except String String)) (x : Except String String) (e : String),
       fileFn x = .error e →
       (mainLoop fileFn name (pre ++ x :: post)).1 = (mainLoop fileFn name (pre ++ post)).1
       ∧ ("Failed to process files " ++ name x) ∈ (mainLoop fileFn name (pre ++ x :: post)).2) := by
  constructor
  · intro paraFn aDocs wDocs bDoc aDoc halign h0 hgt
    unfold docToVertM
    rw [halign]
    exact if_pos ⟨by simp [h0], hgt⟩
  · intro fileFn name pre post x e hx
    exact mainLoop_skip fileFn name x e hx pre post

/-- Witness for C8 on a concrete document pair and batch. -/
theorem bLayerMissing_fatal_and_continue_witness :
    docToVertM (fun _ _ _ => .ok "p") [⟨"adoc1", none, [⟨"p1", ["aw1"]⟩]⟩] []
        ⟨"bdoc1", some "a#adoc1", []⟩ = .error "B-layer annotation missing"
    ∧ (mainLoop id (fun _ => "d1")
        ([Except.ok "a"] ++ (Except.error "ee") :: [Except.ok "b"])).1
      = (mainLoop id (fun _ => "d1") ([Except.ok "a"] ++ [Except.ok "b"])).1
    ∧ ("Failed to process files " ++ "d1") ∈ (mainLoop id (fun _ => "d1")
        ([Except.ok "a"] ++ (Except.error "ee") :: [Except.ok "b"])).2 :=
  ⟨bLayerMissing_fatal_and_continue.1 (fun _ _ _ => .ok "p")
      [⟨"adoc1", none, [⟨"p1", ["aw1"]⟩]⟩] [] ⟨"bdoc1", some "a#adoc1", []⟩
      ⟨"adoc1", none, [⟨"p1", ["aw1"]⟩]⟩ rfl rfl (by decide),
   (bLayerMissing_fatal_and_continue.2 id (fun _ => "d1")
      [Except.ok "a"] [Except.ok "b"] (Except.error "ee") "ee" rfl).1,
   (bLayerMissing_fatal_and_continue.2 id (fun _ => "d1")
      [Except.ok "a"] [Except.ok "b"] (Except.error "ee") "ee" rfl).2⟩

/-- A successfully built B-layer token element has fewer than two `lex`
children (zero is skipped, two or more aborts). -/
theorem buildBW_ok_lexes (idMapBA : AListS) (sid : String) (w : BWElem)
    (r : Option AnnTok × List String) (h : buildBW idMapBA sid w = .ok r) :
    w.lexes.length < 2 := by
  unfold buildBW at h
  split at h
  · next he =>
    rw [List.isEmpty_iff.mp he]
    exact Nat.zero_lt_succ 1
  · split at h
    · exact Except.noConfusion h
    · next hne =>
      have : w.lexes.length = 1 := by simpa using hne
      rw [this]
      exact Nat.one_lt_two

/-- If `createBLayer` completes, every token element had fewer than two
`lex` children. -/
theorem createBLayer_ok_lexes (bPara : List BSent) (idMapBA : AListS)
    (r : List AnnTok × List String) (h : createBLayer bPara idMapBA = .ok r) :
    ∀ s ∈ bPara, ∀ w ∈ s.ws, w.lexes.length < 2 := by
  have inner : ∀ (sid : String) (ws : List BWElem) (acc r : List AnnTok × List String),
      (ws.foldlM (fun acc w => do
        let r ← buildBW idMapBA sid w
        return (acc.1 ++ r.1.toList, acc.2 ++ r.2)) acc) = .ok r →
      ∀ w ∈ ws, w.lexes.length < 2 := by
    intro sid ws
    induction ws with
    | nil =>
      intro acc r h w hw
      exact absurd hw (by simp)
    | cons w0 ws ih =>
      intro acc r h w hw
      rw [List.foldlM_cons] at h
      rcases hb : buildBW idMapBA sid w0 with e | r0 <;> rw [hb] at h
      · have h' : (Except.error e : Except String (List AnnTok × List String)) = .ok r := h
        exact Except.noConfusion h'
      · rcases List.mem_cons.mp hw with h1 | h1
        · subst h1
          exact buildBW_ok_lexes idMapBA sid w r0 hb
        · exact ih (acc.1 ++ r0.1.toList, acc.2 ++ r0.2) r h w h1
  have outer : ∀ (sents : List BSent) (acc r : List AnnTok × List String),
      (sents.foldlM (fun acc s =>
        s.ws.foldlM (fun acc w => do
          let r ← buildBW idMapBA s.sid w
          return (acc.1 ++ r.1.toList, acc.2 ++ r.2)) acc) acc) = .ok r →
      ∀ s ∈ sents, ∀ w ∈ s.ws, w.lexes.length < 2 := by
    intro sents
    induction sents with
    | nil =>
      intro acc r h s hs
      exact absurd hs (by simp)
    | cons s0 sents ih =>
      intro acc r h s hs
      rw [List.foldlM_cons] at h
      rcases hf : s0.ws.foldlM (fun acc w => do
          let r ← buildBW idMapBA s0.sid w
          return (acc.1 ++ r.1.toList, acc.2 ++ r.2)) acc with e | r0 <;> rw [hf] at h
      · have h' : (Except.error e : Except String (List AnnTok × List String)) = .ok r := h
        exact Except.noConfusion h'
      · rcases List.mem_cons.mp hs with h1 | h1
        · subst h1
          exact fun w hw => inner s.sid s.ws acc r0 hf w hw
        · exact ih r0 r h s h1
  exact outer bPara ([], []) r h

/-- C9 counterexample: a B-layer token element with *zero* `lex` children
does not abort the paragraph — it is skipped with a log and the build
succeeds. -/
theorem bLayer_zeroLex_counterexample :
    createBLayer [⟨"s1", [⟨"b1", "txt", [], none⟩]⟩] [] =
      .ok ([], ["skipping token with no lex tag: b1"])
    ∧ ∀ msg : String,
        (Except.ok (([] : List AnnTok), ["skipping token with no lex tag: b1"])
          : Except String (List AnnTok × List String)) ≠ .error msg :=
  ⟨rfl, fun _ h => Except.noConfusion h⟩

/-- C9 (amended): building the B layer aborts the paragraph with a hard
error whenever some token element has *more than one* `lex` (morph) child;
a token element with zero `lex` children is instead skipped with a log. -/
theorem bLayer_multiLex_aborts (bPara : List BSent) (idMapBA : AListS)
    (h : ∃ s ∈ bPara, ∃ w ∈ s.ws, 2 ≤ w.lexes.length) :
    ∃ msg, createBLayer bPara idMapBA = .error msg := by
  rcases hr : createBLayer bPara idMapBA with msg | r
  · exact ⟨msg, rfl⟩
  · obtain ⟨s, hs, w, hw, hlen⟩ := h
    exact absurd (createBLayer_ok_lexes bPara idMapBA r hr s hs w hw)
      (by simpa using hlen)

/-- Witness for C9 (amended) on a concrete two-`lex` token. -/
theorem bLayer_multiLex_aborts_witness :
    ∃ msg, createBLayer
      [⟨"s1", [⟨"b1", "txt", [⟨"l", ["t"]⟩, ⟨"l2", ["t2"]⟩], none⟩]⟩] [] = .error msg :=
  bLayer_multiLex_aborts _ _
    ⟨⟨"s1", [⟨"b1", "txt", [⟨"l", ["t"]⟩, ⟨"l2", ["t2"]⟩], none⟩]⟩, by simp,
     ⟨"b1", "txt", [⟨"l", ["t"]⟩, ⟨"l2", ["t2"]⟩], none⟩, by simp, by decide⟩

/-- Tokens found by id resolution are members of the target layer. -/
theorem findTokensByIds_mem (ids : List String) (layer : List AnnTok) :
    ∀ t ∈ (findTokensByIds ids layer).1, t ∈ layer := by
  induction ids with
  | nil =>
    intro t ht
    exact absurd ht (by simp [findTokensByIds])
  | cons i is ih =>
    intro t ht
    unfold findTokensByIds at ht
    rcases hg : layerGet layer i with - | t0 <;> rw [hg] at ht
    · exact ih t ht
    · rcases List.mem_cons.mp ht with h1 | h1
      · subst h1
        exact List.mem_reverse.mp (List.mem_of_find?_eq_some hg)
      · exact ih t h1

/-- Every entry of a resolved `linksLower` list is a real token of the
target layer. -/
theorem resolveLower_shape (target : List AnnTok) (t : AnnTok) :
    ∀ l ∈ resolveLower target t, ∃ tk, l = Link.tok tk ∧ tk ∈ target := by
  intro l hl
  unfold resolveLower at hl
  rw [List.mem_map] at hl
  obtain ⟨tk, htk, hrfl⟩ := hl
  exact ⟨tk, hrfl.symm, findTokensByIds_mem _ _ tk htk⟩

/-- `inferErrors` cannot raise on a token whose `linksLower` entries are
all real tokens. -/
theorem inferErrorsTok_isSome_of_allTok (lt : LinkedTok)
    (h : ∀ l ∈ lt.linksLower, ∃ tk, l = Link.tok tk) :
    (inferErrorsTok lt).isSome := by
  unfold inferErrorsTok
  split
  · cases hh : lt.linksLower.head? with
    | none =>
      next hg =>
        rw [List.head?_eq_none_iff.mp hh] at hg
        exact absurd hg (by simp)
    | some l =>
      obtain ⟨tk, hrfl⟩ := h l (List.mem_of_mem_head? hh)
      rw [hrfl]
      rfl
  · rfl

/-- C10: after `linkLayers`, every entry of every token's `linksLower`
list is a real token of the adjacent lower layer (never a
`DeletionMarker`, which only ever enters `linksHigher` at build time via
`delHigher`); consequently `inferErrors` can always read the text of a
sole lower link without raising. -/
theorem linksLower_real_tokens (wL aL bL : List AnnTok) :
    (∀ lt ∈ (linkLayers wL aL bL).2.1, ∀ l ∈ lt.linksLower,
       ∃ tk, l = Link.tok tk ∧ tk ∈ wL)
    ∧ (∀ lt ∈ (linkLayers wL aL bL).2.2, ∀ l ∈ lt.linksLower,
       ∃ tk, l = Link.tok tk ∧ tk ∈ aL)
    ∧ (∀ lt ∈ (linkLayers wL aL bL).1, lt.linksLower = [])
    ∧ (∀ lt ∈ (linkLayers wL aL bL).2.1, (inferErrorsTok lt).isSome)
    ∧ (∀ lt ∈ (linkLayers wL aL bL).2.2, (inferErrorsTok lt).isSome) := by
  have hA : ∀ lt ∈ (linkLayers wL aL bL).2.1, ∀ l ∈ lt.linksLower,
      ∃ tk, l = Link.tok tk ∧ tk ∈ wL := by
    intro lt hlt l hl
    obtain ⟨t, -, hrfl⟩ := List.mem_map.mp hlt
    rw [← hrfl] at hl
    exact resolveLower_shape wL t l hl
  have hB : ∀ lt ∈ (linkLayers wL aL bL).2.2, ∀ l ∈ lt.linksLower,
      ∃ tk, l = Link.tok tk ∧ tk ∈ aL := by
    intro lt hlt l hl
    obtain ⟨t, -, hrfl⟩ := List.mem_map.mp hlt
    rw [← hrfl] at hl
    exact resolveLower_shape aL t l hl
  refine ⟨hA, hB, ?_, ?_, ?_⟩
  · intro lt hlt
    obtain ⟨t, -, hrfl⟩ := List.mem_map.mp hlt
    rw [← hrfl]
  · intro lt hlt
    exact inferErrorsTok_isSome_of_allTok lt
      (fun l hl => (hA lt hlt l hl).imp (fun tk htk => htk.1))
  · intro lt hlt
    exact inferErrorsTok_isSome_of_allTok lt
      (fun l hl => (hB lt hlt l hl).imp (fun tk htk => htk.1))

/-- Witness for C10 on a concrete one-token-per-layer linking. -/
theorem linksLower_real_tokens_witness :
    (∃ tk, Link.tok (⟨"w1", "hello", "w", none, [], [], [], none, none⟩ : AnnTok)
        = Link.tok tk ∧ tk ∈ [(⟨"w1", "hello", "w", none, [], [], [], none, none⟩ : AnnTok)])
    ∧ (inferErrorsTok ⟨⟨"a1", "hi", "a", none, ["w1"], [], [], none, none⟩,
        [Link.tok ⟨"w1", "hello", "w", none, [], [], [], none, none⟩], []⟩).isSome :=
  ⟨(linksLower_real_tokens [⟨"w1", "hello", "w", none, [], [], [], none, none⟩]
      [⟨"a1", "hi", "a", none, ["w1"], [], [], none, none⟩] []).1
      ⟨⟨"a1", "hi", "a", none, ["w1"], [], [], none, none⟩,
        [Link.tok ⟨"w1", "hello", "w", none, [], [], [], none, none⟩], []⟩ (by decide)
      (Link.tok ⟨"w1", "hello", "w", none, [], [], [], none, none⟩) (by decide),
   (linksLower_real_tokens [⟨"w1", "hello", "w", none, [], [], [], none, none⟩]
      [⟨"a1", "hi", "a", none, ["w1"], [], [], none, none⟩] []).2.2.2.1
      ⟨⟨"a1", "hi", "a", none, ["w1"], [], [], none, none⟩,
        [Link.tok ⟨"w1", "hello", "w", none, [], [], [], none, none⟩], []⟩ (by decide)⟩

end Czesl
